import Mathlib

/-!
Shallow embedding of the epoll-based TCP echo server and its companion
client (src/epoll.c).  Buffers are lists of byte values (Nat), file
descriptors are Int (accept returns -1 on failure), and epoll interest
masks are Nat bit masks with the Linux bit values.  The event-loop body
of server_run is modelled per readiness event; the OS is an oracle
(World) supplying accept results, read chunks and write outcomes.
-/

namespace EpollEcho

/-- BUF_SIZE from epoll.c: size of the server's shared I/O buffer. -/
def BUF_SIZE : Nat := 16

/-- EPOLLIN bit (Linux value 0x001). -/
def EPOLLIN : Nat := 1

/-- EPOLLOUT bit (Linux value 0x004). -/
def EPOLLOUT : Nat := 4

/-- EPOLLHUP bit (Linux value 0x010). -/
def EPOLLHUP : Nat := 16

/-- EPOLLRDHUP bit (Linux value 0x2000). -/
def EPOLLRDHUP : Nat := 8192

/-- EPOLLET bit (Linux value 1 shifted left 31). -/
def EPOLLET : Nat := 2147483648

/-- EXIT_SUCCESS. -/
def EXIT_SUCCESS : Nat := 0

/-- EXIT_FAILURE. -/
def EXIT_FAILURE : Nat := 1

/-- STDIN_FILENO: file descriptor 0. -/
def STDIN_FILENO : Int := 0

/-- C string content of a buffer: the bytes before the first NUL
(what strlen/strcmp/printf "%s" see). -/
def cstr (buf : List Nat) : List Nat := buf.takeWhile (fun b => b != 0)

/-- strlen on a buffer. -/
def strlen (buf : List Nat) : Nat := (cstr buf).length

/-- Whether strcmp(buf, lit) == 0 for a NUL-free literal lit:
the buffer's NUL-terminated content equals the literal. -/
def strcmpZero (buf lit : List Nat) : Bool := cstr buf == lit

/-- bzero(buf, sizeof(buf)): every byte of the buffer becomes 0. -/
def bzeroCall (buf : List Nat) : List Nat := List.replicate buf.length 0

/-- read(fd, buf, sizeof(buf)) returning the bytes chunk: the chunk is
stored at the start of the buffer, later bytes keep their old value. -/
def readIntoBuf (buf chunk : List Nat) : List Nat :=
  chunk ++ buf.drop chunk.length

/-- strftime(buf, sizeof(buf), fmt, tm) with formatted output s
(assumed to fit, as locale short date/time strings do): s is written
at the start of the buffer followed by a NUL terminator. -/
def strftimeInto (buf s : List Nat) : List Nat :=
  s ++ 0 :: buf.drop (s.length + 1)

/-- The byte string "%date%". -/
def dateTok : List Nat := [37, 100, 97, 116, 101, 37]

/-- The byte string "%time%". -/
def timeTok : List Nat := [37, 116, 105, 109, 101, 37]

/-- The byte string "exit\n" compared against stdin input. -/
def exitLineTok : List Nat := [101, 120, 105, 116, 10]

/-- The byte string "exit" compared against a client input line. -/
def exitTok : List Nat := [101, 120, 105, 116]

/-- Interest mask registered for the listening socket at startup
(epoll.c line 168): EPOLLIN | EPOLLOUT | EPOLLET. -/
def listenMask : Nat := EPOLLIN ||| EPOLLOUT ||| EPOLLET

/-- Interest mask registered for stdin (epoll.c line 171):
EPOLLIN | EPOLLET. -/
def stdinMask : Nat := EPOLLIN ||| EPOLLET

/-- Interest mask registered for each accepted connection
(epoll.c line 197): EPOLLIN | EPOLLET | EPOLLRDHUP | EPOLLHUP. -/
def connMask : Nat := EPOLLIN ||| EPOLLET ||| EPOLLRDHUP ||| EPOLLHUP

/-- A 16-byte all-zero buffer (the shared buffer right after bzero). -/
def zeroBuf : List Nat := List.replicate BUF_SIZE 0

/-- State of the server process visible to the event loop: the epoll
interest list (fd, mask), the closed fds, whether (and how) exit() was
called, the shared I/O buffer, the OS queue of pending connections on
the listening socket, the fds on which non-blocking mode was requested,
and the observable logs/writes. -/
structure ServerState where
  epollSet : List (Int × Nat)
  closed : List Int
  exited : Option Nat
  buf : List Nat
  pending : List Int
  nonblocked : List Int
  stdinLog : List (Nat × List Nat)
  connLog : List (Nat × List Nat)
  sent : List (Int × List Nat × Bool)
  deriving Repr, DecidableEq

/-- OS oracle for one dispatched event: whether epoll_ctl ADD succeeds
for a given (fd, mask), the text inet_ntop leaves in the shared buffer,
the chunks successive reads deliver on stdin, the chunks delivered on a
connection paired with the success of the corresponding echo write, and
the strftime outputs for the two tokens. -/
structure World where
  ctlOk : Int → Nat → Bool
  peerText : List Nat
  stdinChunks : List (List Nat)
  connChunks : List (List Nat × Bool)
  dateStr : List Nat
  timeStr : List Nat

/-- epoll_ctl_add (epoll.c lines 77-90): on success the (fd, mask) pair
joins the interest list; on failure the process exits with
EXIT_FAILURE.  A state in which exit() already ran is absorbing. -/
def epoll_ctl_add (ok : Bool) (fd : Int) (mask : Nat) (s : ServerState) :
    ServerState :=
  if s.exited.isSome then s
  else if ok then { s with epollSet := s.epollSet ++ [(fd, mask)] }
  else { s with exited := some EXIT_FAILURE }

/-- accept on the non-blocking listening socket: returns the next
pending connection, or -1 when none is pending (EAGAIN). -/
def acceptCall : List Int → Int × List Int
  | [] => (-1, [])
  | c :: rest => (c, rest)

/-- The listening-socket branch (epoll.c lines 183-197): one accept
call, whose result is not checked; inet_ntop writes the peer text into
the shared buffer; setnonblocking is called on the result (return value
ignored); the result is registered with connMask via epoll_ctl_add. -/
def handleAccept (w : World) (s : ServerState) : ServerState :=
  let r := acceptCall s.pending
  let s1 := { s with pending := r.2, buf := w.peerText,
                     nonblocked := s.nonblocked ++ [r.1] }
  epoll_ctl_add (w.ctlOk r.1 connMask) r.1 connMask s1

/-- The stdin branch (epoll.c lines 198-216): drain loop; each
iteration zeroes the buffer, reads a chunk, and either shuts down (on
the exact line "exit\n": close the listening socket, close the epoll
fd, exit successfully) or logs the chunk and continues. -/
def handleStdin (ls ep : Int) : ServerState → List (List Nat) → ServerState
  | s, [] => s
  | s, chunk :: rest =>
    let buf := readIntoBuf (bzeroCall s.buf) chunk
    if strcmpZero buf exitLineTok then
      { s with buf := buf, closed := s.closed ++ [ls, ep],
               exited := some EXIT_SUCCESS }
    else
      handleStdin ls ep
        { s with buf := buf,
                 stdinLog := s.stdinLog ++ [(chunk.length, cstr buf)] } rest

/-- The echo substitution (epoll.c lines 229-237): if the buffer's text
is exactly "%date%" the strftime date output replaces it; if exactly
"%time%" the time output; otherwise the buffer is unchanged. -/
def echoBufFor (d t buf : List Nat) : List Nat :=
  if strcmpZero buf dateTok then strftimeInto buf d
  else if strcmpZero buf timeTok then strftimeInto buf t
  else buf

/-- One iteration of the connection read loop (epoll.c lines 219-245)
at buffer granularity: zero the shared buffer, read the chunk, apply
the substitution; the result pairs the new buffer contents with the
bytes passed to write (strlen(buf) bytes from the buffer start). -/
def connChunkStep (d t b chunk : List Nat) : List Nat × List Nat :=
  let buf := readIntoBuf (bzeroCall b) chunk
  let buf2 := echoBufFor d t buf
  (buf2, cstr buf2)

/-- The connection branch (epoll.c lines 217-246): drain loop over the
delivered chunks; each chunk is logged, substituted, and written back;
a failed write is only reported (perror) and the loop continues. -/
def handleConn (d t : List Nat) (fd : Int) :
    ServerState → List (List Nat × Bool) → ServerState
  | s, [] => s
  | s, (chunk, ok) :: rest =>
    let r := connChunkStep d t s.buf chunk
    handleConn d t fd
      { s with buf := r.1,
               connLog := s.connLog ++
                 [(chunk.length, cstr (readIntoBuf (bzeroCall s.buf) chunk))],
               sent := s.sent ++ [(fd, r.2, ok)] } rest

/-- The bytes a single chunk causes the server to write back, when read
into a freshly zeroed 16-byte buffer. -/
def chunkWritten (d t chunk : List Nat) : List Nat :=
  cstr (echoBufFor d t (readIntoBuf zeroBuf chunk))

/-- The NUL-terminated text of a chunk read into a freshly zeroed
16-byte buffer (what strcmp compares against the tokens). -/
def chunkText (chunk : List Nat) : List Nat :=
  cstr (readIntoBuf zeroBuf chunk)

/-- The body of the event loop for one readiness event (epoll.c lines
182-260): route by identity (listening socket, stdin, EPOLLIN
connection, otherwise log as unexpected), then — unless the branch
exited the process — test the event bits for EPOLLRDHUP | EPOLLHUP and,
if set, deregister and close the event's fd. -/
def handleEvent (w : World) (ls ep : Int) (s : ServerState)
    (evFd : Int) (evMask : Nat) : ServerState :=
  let s1 :=
    if evFd = ls then handleAccept w s
    else if evFd = STDIN_FILENO then handleStdin ls ep s w.stdinChunks
    else if evMask &&& EPOLLIN ≠ 0 then
      handleConn w.dateStr w.timeStr evFd s w.connChunks
    else s
  if s1.exited.isSome then s1
  else if evMask &&& (EPOLLRDHUP ||| EPOLLHUP) ≠ 0 then
    { s1 with epollSet := s1.epollSet.filter (fun p => p.1 != evFd),
              closed := s1.closed ++ [evFd] }
  else s1

/-- The two startup registrations (epoll.c lines 164-171): the
listening socket with listenMask, then stdin with stdinMask. -/
def serverStartup (ok1 ok2 : Bool) (ls : Int) (s : ServerState) :
    ServerState :=
  epoll_ctl_add ok2 STDIN_FILENO stdinMask
    (epoll_ctl_add ok1 ls listenMask s)

/-- One client loop iteration (epoll.c lines 285-295) on the line the
user entered (the bytes fgets stored, NUL-free, normally ending in a
newline): c = strlen(buf) - 1; buf[c] = 0; if the resulting text is
"exit" the loop breaks (none); otherwise write sends c + 1 bytes, i.e.
the updated buffer prefix including the NUL that replaced the last
character. -/
def clientStep (line : List Nat) : Option (List Nat) :=
  let c : Nat := line.length - 1
  let buf := line.set c 0
  if strcmpZero buf exitTok then none
  else some buf

/-- The client's send behaviour over the successive input lines: the
list of byte sequences written to the socket before the client
terminates (an "exit" line breaks the loop and the socket is closed). -/
def client_run : List (List Nat) → List (List Nat)
  | [] => []
  | line :: rest =>
    match clientStep line with
    | none => []
    | some sent => sent :: client_run rest

/-- An initial server state: nothing registered, nothing closed, the
16-byte buffer in scope, no pending connections. -/
def initState : ServerState :=
  ⟨[], [], none, List.replicate 16 0, [], [], [], [], []⟩

/-- A benign world: every registration succeeds, no chunks pending. -/
def w0 : World := ⟨fun _ _ => true, [], [], [], [], []⟩

/-- Initial state with two connections pending on the listening
socket's accept queue. -/
def s15 : ServerState := { initState with pending := [5, 6] }

/-- A state with one registered connection (fd 7, EPOLLIN interest). -/
def s5 : ServerState := { initState with epollSet := [(7, EPOLLIN)] }

/-- A world in which every epoll_ctl registration fails. -/
def wF : World := ⟨fun _ _ => false, [], [], [], [], []⟩

/-! Helper lemmas about the byte-level primitives. -/

theorem cstr_append_zero (c r : List Nat) (h : ∀ b ∈ c, b ≠ 0) :
    cstr (c ++ 0 :: r) = c := by
  induction c with
  | nil => simp [cstr]
  | cons a c ih =>
      have ha : a ≠ 0 := h a (by simp)
      have ih' := ih fun b hb => h b (by simp [hb])
      simp only [cstr] at ih' ⊢
      simp [List.takeWhile_cons, ha, ih']

theorem readIntoBuf_zeroBuf (chunk : List Nat) (h : chunk.length ≤ 15) :
    readIntoBuf zeroBuf chunk =
      chunk ++ 0 :: List.replicate (15 - chunk.length) 0 := by
  simp only [readIntoBuf, zeroBuf, BUF_SIZE, List.drop_replicate]
  rw [show 16 - chunk.length = (15 - chunk.length) + 1 by omega,
    List.replicate_succ]

theorem cstr_readIntoBuf_zeroBuf (chunk : List Nat) (h15 : chunk.length ≤ 15)
    (hnz : ∀ x ∈ chunk, x ≠ 0) : cstr (readIntoBuf zeroBuf chunk) = chunk := by
  rw [readIntoBuf_zeroBuf chunk h15, cstr_append_zero chunk _ hnz]

theorem bzeroCall_eq_zeroBuf (b : List Nat) (h : b.length = 16) :
    bzeroCall b = zeroBuf := by
  simp [bzeroCall, zeroBuf, BUF_SIZE, h]

theorem readIntoBuf_length (b chunk : List Nat) (h : chunk.length ≤ b.length) :
    (readIntoBuf b chunk).length = b.length := by
  simp [readIntoBuf]
  omega

theorem set_length_append (l : List Nat) (a x : Nat) :
    (l ++ [a]).set l.length x = l ++ [x] := by
  induction l with
  | nil => rfl
  | cons y l ih => simp [List.set, ih]

theorem echoBufFor_length (d t b chunk : List Nat) (hd15 : d.length ≤ 15)
    (ht15 : t.length ≤ 15) (hb : b.length = 16) (hck : chunk.length ≤ 16) :
    (echoBufFor d t (readIntoBuf (bzeroCall b) chunk)).length = 16 := by
  have hbl : (bzeroCall b).length = 16 := by simp [bzeroCall, hb]
  have hlen : (readIntoBuf (bzeroCall b) chunk).length = 16 := by
    rw [readIntoBuf_length _ _ (by rw [hbl]; exact hck)]
    exact hbl
  unfold echoBufFor
  split
  · simp [strftimeInto, hlen]
    omega
  · split
    · simp [strftimeInto, hlen]
      omega
    · exact hlen

theorem handleConn_registry_invariant (d t : List Nat) (fd : Int)
    (cks : List (List Nat × Bool)) :
    ∀ s : ServerState,
      (handleConn d t fd s cks).epollSet = s.epollSet ∧
      (handleConn d t fd s cks).closed = s.closed ∧
      (handleConn d t fd s cks).exited = s.exited := by
  induction cks with
  | nil => intro s; simp [handleConn]
  | cons p rest ih =>
      intro s
      obtain ⟨chunk, ok⟩ := p
      simp only [handleConn]
      exact ih _

theorem handleConn_sent (d t : List Nat) (fd : Int) (hd15 : d.length ≤ 15)
    (ht15 : t.length ≤ 15) (cks : List (List Nat × Bool)) :
    ∀ s : ServerState, s.buf.length = 16 → (∀ p ∈ cks, p.1.length ≤ 16) →
    (handleConn d t fd s cks).sent =
      s.sent ++ cks.map fun p => (fd, chunkWritten d t p.1, p.2) := by
  induction cks with
  | nil => intro s _ _; simp [handleConn]
  | cons p rest ih =>
      intro s hb hck
      obtain ⟨chunk, ok⟩ := p
      have hz := bzeroCall_eq_zeroBuf s.buf hb
      have hb2 : (connChunkStep d t s.buf chunk).1.length = 16 := by
        have h := echoBufFor_length d t s.buf chunk hd15 ht15 hb
          (hck (chunk, ok) (by simp))
        simpa [connChunkStep] using h
      have hck2 : ∀ q ∈ rest, q.1.length ≤ 16 := fun q hq => hck q (by simp [hq])
      simp only [handleConn]
      rw [ih _ hb2 hck2]
      simp [connChunkStep, chunkWritten, hz]

/-! Claim theorems. -/

/-- C1 (amended): on a readiness event for the listening socket the
server performs a single accept — not a drain loop — and for the one
accepted connection requests non-blocking mode and registers it with
connMask, whose bits include EPOLLIN, EPOLLET, EPOLLRDHUP and
EPOLLHUP. -/
theorem C1_single_accept (w : World) (s : ServerState) (c : Int)
    (rest : List Int) (h0 : s.exited = none) (hp : s.pending = c :: rest)
    (hok : w.ctlOk c connMask = true) :
    (handleAccept w s).pending = rest ∧
    (handleAccept w s).nonblocked = s.nonblocked ++ [c] ∧
    (handleAccept w s).epollSet = s.epollSet ++ [(c, connMask)] ∧
    connMask &&& EPOLLIN ≠ 0 ∧ connMask &&& EPOLLET ≠ 0 ∧
    connMask &&& EPOLLRDHUP ≠ 0 ∧ connMask &&& EPOLLHUP ≠ 0 := by
  refine ⟨?_, ?_, ?_, by decide, by decide, by decide, by decide⟩ <;>
    simp [handleAccept, acceptCall, hp, epoll_ctl_add, h0, hok]

/-- C1 witness: the single-accept behaviour at a concrete input. -/
theorem C1_single_accept_witness :
    (handleAccept w0 s15).pending = [6] ∧
    (handleAccept w0 s15).nonblocked = s15.nonblocked ++ [5] ∧
    (handleAccept w0 s15).epollSet = s15.epollSet ++ [(5, connMask)] ∧
    connMask &&& EPOLLIN ≠ 0 ∧ connMask &&& EPOLLET ≠ 0 ∧
    connMask &&& EPOLLRDHUP ≠ 0 ∧ connMask &&& EPOLLHUP ≠ 0 :=
  C1_single_accept w0 s15 5 [6] (by decide) (by decide) (by decide)

/-- C1 counterexample: with two connections pending, one listening
socket readiness event leaves the second connection pending and never
registers it — accept is not repeated until "would block". -/
theorem C1_counterexample :
    (handleEvent w0 3 4 s15 3 EPOLLIN).pending = [6] ∧
    ∀ p ∈ (handleEvent w0 3 4 s15 3 EPOLLIN).epollSet, p.1 ≠ 6 := by
  decide

/-- C5: after the routing branch for an event has run — whichever
branch it was — if the event's bits contain EPOLLRDHUP or EPOLLHUP and
the branch did not exit the process, the event's fd is removed from the
epoll interest list and closed. -/
theorem C5_hup_teardown (w : World) (ls ep : Int) (s : ServerState)
    (evFd : Int) (evMask : Nat)
    (hmask : evMask &&& (EPOLLRDHUP ||| EPOLLHUP) ≠ 0)
    (hres : (handleEvent w ls ep s evFd evMask).exited = none) :
    (∀ p ∈ (handleEvent w ls ep s evFd evMask).epollSet, p.1 ≠ evFd) ∧
    evFd ∈ (handleEvent w ls ep s evFd evMask).closed := by
  unfold handleEvent at hres ⊢
  generalize (if evFd = ls then handleAccept w s
    else if evFd = STDIN_FILENO then handleStdin ls ep s w.stdinChunks
    else if evMask &&& EPOLLIN ≠ 0 then
      handleConn w.dateStr w.timeStr evFd s w.connChunks
    else s) = s1 at hres ⊢
  by_cases hex : s1.exited.isSome
  · rw [if_pos hex] at hres
    rw [hres] at hex
    simp at hex
  · rw [if_neg hex, if_pos hmask]
    constructor
    · intro p hp
      have hm := List.mem_filter.mp hp
      simpa using hm.2
    · simp

/-- C5 witness: a hangup-bit event on a registered connection fd, at a
concrete input, ends deregistered and closed. -/
theorem C5_hup_teardown_witness :
    (∀ p ∈ (handleEvent w0 3 4 s5 7 16).epollSet, p.1 ≠ 7) ∧
    (7 : Int) ∈ (handleEvent w0 3 4 s5 7 16).closed :=
  C5_hup_teardown w0 3 4 s5 7 16 (by decide) (by decide)

/-- C7 (amended): at startup the listening socket is registered with
mask listenMask = EPOLLIN | EPOLLOUT | EPOLLET — readable, writable and
edge-triggered, with no peer-closed/hangup bits. -/
theorem C7_listen_registration (ok2 : Bool) (ls : Int) (s : ServerState)
    (h0 : s.exited = none) :
    (ls, listenMask) ∈ (serverStartup true ok2 ls s).epollSet ∧
    listenMask &&& EPOLLIN ≠ 0 ∧ listenMask &&& EPOLLOUT ≠ 0 ∧
    listenMask &&& EPOLLET ≠ 0 ∧ listenMask &&& EPOLLRDHUP = 0 ∧
    listenMask &&& EPOLLHUP = 0 := by
  refine ⟨?_, by decide, by decide, by decide, by decide, by decide⟩
  cases ok2 <;> simp [serverStartup, epoll_ctl_add, h0]

/-- C7 witness: the startup registration of the listening socket at a
concrete input. -/
theorem C7_listen_registration_witness :
    ((3 : Int), listenMask) ∈ (serverStartup true true 3 initState).epollSet ∧
    listenMask &&& EPOLLIN ≠ 0 ∧ listenMask &&& EPOLLOUT ≠ 0 ∧
    listenMask &&& EPOLLET ≠ 0 ∧ listenMask &&& EPOLLRDHUP = 0 ∧
    listenMask &&& EPOLLHUP = 0 :=
  C7_listen_registration true 3 initState (by decide)

/-- C7 counterexample: every startup registration of the listening
socket (fd 3) carries EPOLLOUT, so its interest mask is not exactly
EPOLLIN | EPOLLET as claimed. -/
theorem C7_counterexample :
    (∀ p ∈ (serverStartup true true 3 initState).epollSet,
      p.1 = 3 → p.2 &&& EPOLLOUT ≠ 0) ∧
    ((3 : Int), listenMask) ∈ (serverStartup true true 3 initState).epollSet ∧
    listenMask ≠ EPOLLIN ||| EPOLLET := by
  decide

/-- C10: with no pending connection, accept yields -1 and the server
does not check it: non-blocking mode is requested on fd -1, fd -1 is
handed to epoll_ctl_add, and the failing registration exits the process
with EXIT_FAILURE, registering nothing. -/
theorem C10_accept_failure_fatal (w : World) (s : ServerState)
    (h0 : s.exited = none) (hp : s.pending = [])
    (hc : w.ctlOk (-1) connMask = false) :
    (handleAccept w s).nonblocked = s.nonblocked ++ [-1] ∧
    (handleAccept w s).exited = some EXIT_FAILURE ∧
    (handleAccept w s).epollSet = s.epollSet := by
  refine ⟨?_, ?_, ?_⟩ <;>
    simp [handleAccept, acceptCall, hp, epoll_ctl_add, h0, hc]

/-- C10 witness: the fatal accept-failure path at a concrete input. -/
theorem C10_accept_failure_fatal_witness :
    (handleAccept wF initState).nonblocked = initState.nonblocked ++ [-1] ∧
    (handleAccept wF initState).exited = some EXIT_FAILURE ∧
    (handleAccept wF initState).epollSet = initState.epollSet :=
  C10_accept_failure_fatal wF initState (by decide) (by decide) (by decide)

/-- C2 (amended): for a chunk of at most 15 bytes containing no zero
byte and differing from both reserved tokens, the bytes written back
equal the chunk. -/
theorem C2_echo_identity (d t b chunk : List Nat) (hb : b.length = 16)
    (h15 : chunk.length ≤ 15) (hnz : ∀ x ∈ chunk, x ≠ 0)
    (hdt : chunk ≠ dateTok) (htt : chunk ≠ timeTok) :
    (connChunkStep d t b chunk).2 = chunk := by
  have hz := bzeroCall_eq_zeroBuf b hb
  have hct := cstr_readIntoBuf_zeroBuf chunk h15 hnz
  have h1 : strcmpZero (readIntoBuf zeroBuf chunk) dateTok = false := by
    simp [strcmpZero, hct, hdt]
  have h2 : strcmpZero (readIntoBuf zeroBuf chunk) timeTok = false := by
    simp [strcmpZero, hct, htt]
  simp [connChunkStep, hz, echoBufFor, h1, h2, hct]

/-- C2 witness: the echo identity at a concrete chunk. -/
theorem C2_echo_identity_witness :
    (connChunkStep [] [] zeroBuf [104, 105]).2 = [104, 105] :=
  C2_echo_identity [] [] zeroBuf [104, 105] (by decide) (by decide)
    (by decide) (by decide) (by decide)

/-- C2 counterexample: the chunk [65, 0, 66] has 3 ≤ 15 bytes and is
not a reserved token, yet the server writes back only [65] — the write
length is strlen of the buffer, which stops at the embedded zero
byte. -/
theorem C2_counterexample :
    ([65, 0, 66] : List Nat).length ≤ 15 ∧
    ([65, 0, 66] : List Nat) ≠ dateTok ∧
    ([65, 0, 66] : List Nat) ≠ timeTok ∧
    (connChunkStep [] [] zeroBuf [65, 0, 66]).2 ≠ [65, 0, 66] ∧
    (connChunkStep [] [] zeroBuf [65, 0, 66]).2 = [65] := by
  decide

/-- C3: on every read chunk, substitution applies exactly when the
chunk's NUL-terminated text equals "%date%" (the buffer is replaced by
the strftime short-date output) or "%time%" (short-time output), and
otherwise the buffer passes through unchanged into the write-back. -/
theorem C3_substitution (d t b chunk : List Nat) (hb : b.length = 16) :
    (chunkText chunk = dateTok →
      (connChunkStep d t b chunk).1 =
        strftimeInto (readIntoBuf zeroBuf chunk) d) ∧
    (chunkText chunk = timeTok →
      (connChunkStep d t b chunk).1 =
        strftimeInto (readIntoBuf zeroBuf chunk) t) ∧
    (chunkText chunk ≠ dateTok → chunkText chunk ≠ timeTok →
      (connChunkStep d t b chunk).1 = readIntoBuf zeroBuf chunk) := by
  have hz := bzeroCall_eq_zeroBuf b hb
  refine ⟨fun h => ?_, fun h => ?_, fun h1 h2 => ?_⟩
  · simp only [chunkText] at h
    simp [connChunkStep, hz, echoBufFor, strcmpZero, h]
  · simp only [chunkText] at h
    have hne : timeTok ≠ dateTok := by decide
    simp [connChunkStep, hz, echoBufFor, strcmpZero, h, hne]
  · simp only [chunkText] at h1 h2
    simp [connChunkStep, hz, echoBufFor, strcmpZero, h1, h2]

/-- C3 witness: a "%date%" chunk is replaced by the date string. -/
theorem C3_substitution_witness :
    (connChunkStep [68] [84] zeroBuf dateTok).1 =
      strftimeInto (readIntoBuf zeroBuf dateTok) [68] :=
  (C3_substitution [68] [84] zeroBuf dateTok (by decide)).1 (by decide)

/-- C6: a failed write on a connection is non-fatal: over any chunk
list with any pattern of write failures, the interest list, the closed
list and the exit status are unchanged — the connection stays open and
registered — and exactly one (unretried) write attempt is recorded per
chunk, in order, so the loop went on to the next chunk after each
failure. -/
theorem C6_write_failure_nonfatal (d t : List Nat) (fd : Int)
    (cks : List (List Nat × Bool)) (s : ServerState)
    (hd15 : d.length ≤ 15) (ht15 : t.length ≤ 15)
    (hb : s.buf.length = 16) (hck : ∀ p ∈ cks, p.1.length ≤ 16) :
    (handleConn d t fd s cks).epollSet = s.epollSet ∧
    (handleConn d t fd s cks).closed = s.closed ∧
    (handleConn d t fd s cks).exited = s.exited ∧
    (handleConn d t fd s cks).sent =
      s.sent ++ cks.map fun p => (fd, chunkWritten d t p.1, p.2) := by
  obtain ⟨h1, h2, h3⟩ := handleConn_registry_invariant d t fd cks s
  exact ⟨h1, h2, h3, handleConn_sent d t fd hd15 ht15 cks s hb hck⟩

/-- C6 witness: a failing write on the first chunk, at a concrete
input, leaves the connection registered and the loop processing the
second chunk. -/
theorem C6_write_failure_nonfatal_witness :
    (handleConn [68] [84] 7 s5 [([104], false), ([105], true)]).epollSet =
      s5.epollSet ∧
    (handleConn [68] [84] 7 s5 [([104], false), ([105], true)]).closed =
      s5.closed ∧
    (handleConn [68] [84] 7 s5 [([104], false), ([105], true)]).exited =
      s5.exited ∧
    (handleConn [68] [84] 7 s5 [([104], false), ([105], true)]).sent =
      s5.sent ++ [([104], false), ([105], true)].map
        fun p => ((7 : Int), chunkWritten [68] [84] p.1, p.2) :=
  C6_write_failure_nonfatal [68] [84] 7 [([104], false), ([105], true)] s5
    (by decide) (by decide) (by decide) (by decide)

theorem handleStdin_no_exit (ls ep : Int) (chunks : List (List Nat)) :
    ∀ s : ServerState, s.buf.length = 16 → (∀ c ∈ chunks, c.length ≤ 16) →
    (∀ c ∈ chunks, chunkText c ≠ exitLineTok) →
    (handleStdin ls ep s chunks).exited = s.exited ∧
    (handleStdin ls ep s chunks).epollSet = s.epollSet ∧
    (handleStdin ls ep s chunks).closed = s.closed ∧
    (handleStdin ls ep s chunks).sent = s.sent ∧
    (handleStdin ls ep s chunks).stdinLog =
      s.stdinLog ++ chunks.map fun c => (c.length, chunkText c) := by
  induction chunks with
  | nil => intro s _ _ _; simp [handleStdin]
  | cons c rest ih =>
      intro s hb hck hno
      have hz := bzeroCall_eq_zeroBuf s.buf hb
      have hcne : chunkText c ≠ exitLineTok := hno c (by simp)
      have hcond :
          strcmpZero (readIntoBuf (bzeroCall s.buf) c) exitLineTok = false := by
        simp only [chunkText] at hcne
        simp [strcmpZero, hz, hcne]
      have hbl : (bzeroCall s.buf).length = 16 := by simp [bzeroCall, hb]
      have hb2 : (readIntoBuf (bzeroCall s.buf) c).length = 16 := by
        rw [readIntoBuf_length _ _ (by rw [hbl]; exact hck c (by simp))]
        exact hbl
      have hck2 : ∀ q ∈ rest, q.length ≤ 16 := fun q hq => hck q (by simp [hq])
      have hno2 : ∀ q ∈ rest, chunkText q ≠ exitLineTok :=
        fun q hq => hno q (by simp [hq])
      simp only [handleStdin, hcond, Bool.false_eq_true, if_false]
      obtain ⟨h1, h2, h3, h4, h5⟩ := ih
        { s with buf := readIntoBuf (bzeroCall s.buf) c,
                 stdinLog := s.stdinLog ++
                   [(c.length, cstr (readIntoBuf (bzeroCall s.buf) c))] }
        hb2 hck2 hno2
      refine ⟨h1, h2, h3, h4, h5.trans ?_⟩
      simp [chunkText, hz]

theorem handleStdin_exit (ls ep : Int) (chunks : List (List Nat)) :
    ∀ s : ServerState, s.buf.length = 16 → (∀ c ∈ chunks, c.length ≤ 16) →
    (∃ c ∈ chunks, chunkText c = exitLineTok) →
    (handleStdin ls ep s chunks).exited = some EXIT_SUCCESS ∧
    ls ∈ (handleStdin ls ep s chunks).closed ∧
    ep ∈ (handleStdin ls ep s chunks).closed := by
  induction chunks with
  | nil => intro s _ _ hex; simp at hex
  | cons c rest ih =>
      intro s hb hck hex
      have hz := bzeroCall_eq_zeroBuf s.buf hb
      by_cases hc : chunkText c = exitLineTok
      · have hcond :
            strcmpZero (readIntoBuf (bzeroCall s.buf) c) exitLineTok = true := by
          simp only [chunkText] at hc
          simp [strcmpZero, hz, hc]
        simp [handleStdin, hcond]
      · have hcond :
            strcmpZero (readIntoBuf (bzeroCall s.buf) c) exitLineTok = false := by
          simp only [chunkText] at hc
          simp [strcmpZero, hz, hc]
        have hbl : (bzeroCall s.buf).length = 16 := by simp [bzeroCall, hb]
        have hb2 : (readIntoBuf (bzeroCall s.buf) c).length = 16 := by
          rw [readIntoBuf_length _ _ (by rw [hbl]; exact hck c (by simp))]
          exact hbl
        have hck2 : ∀ q ∈ rest, q.length ≤ 16 :=
          fun q hq => hck q (by simp [hq])
        have hex2 : ∃ q ∈ rest, chunkText q = exitLineTok := by
          obtain ⟨q, hq, hqt⟩ := hex
          rcases List.mem_cons.mp hq with h | h
          · exact absurd (h ▸ hqt) hc
          · exact ⟨q, h, hqt⟩
        simp only [handleStdin, hcond, Bool.false_eq_true, if_false]
        exact ih _ hb2 hck2 hex2

/-- C4: a stdin chunk whose text is the exact line "exit\n" shuts the
server down — the listening socket and the epoll fd are closed and the
process exits with EXIT_SUCCESS; when no chunk is that line, every
chunk is logged and the interest list, the closed list, the exit status
and the connection writes are untouched. -/
theorem C4_control_shutdown (ls ep : Int) (chunks : List (List Nat))
    (s : ServerState) (hb : s.buf.length = 16)
    (hck : ∀ c ∈ chunks, c.length ≤ 16) :
    ((∃ c ∈ chunks, chunkText c = exitLineTok) →
      (handleStdin ls ep s chunks).exited = some EXIT_SUCCESS ∧
      ls ∈ (handleStdin ls ep s chunks).closed ∧
      ep ∈ (handleStdin ls ep s chunks).closed) ∧
    ((∀ c ∈ chunks, chunkText c ≠ exitLineTok) →
      (handleStdin ls ep s chunks).exited = s.exited ∧
      (handleStdin ls ep s chunks).epollSet = s.epollSet ∧
      (handleStdin ls ep s chunks).closed = s.closed ∧
      (handleStdin ls ep s chunks).sent = s.sent ∧
      (handleStdin ls ep s chunks).stdinLog =
        s.stdinLog ++ chunks.map fun c => (c.length, chunkText c)) :=
  ⟨fun hex => handleStdin_exit ls ep chunks s hb hck hex,
   fun hno => handleStdin_no_exit ls ep chunks s hb hck hno⟩

/-- C4 witness: the exact "exit\n" line at a concrete input causes the
successful shutdown. -/
theorem C4_control_shutdown_witness :
    (handleStdin 3 4 initState [[101, 120, 105, 116, 10]]).exited =
      some EXIT_SUCCESS ∧
    (3 : Int) ∈ (handleStdin 3 4 initState [[101, 120, 105, 116, 10]]).closed ∧
    (4 : Int) ∈ (handleStdin 3 4 initState [[101, 120, 105, 116, 10]]).closed :=
  (C4_control_shutdown 3 4 [[101, 120, 105, 116, 10]] initState (by decide)
    (by decide)).1 ⟨[101, 120, 105, 116, 10], by decide, by decide⟩

/-- C8 (amended): for a newline-terminated input line with NUL-free
content core, the client sends core followed by one NUL byte — the
write length is c + 1 and buf[c] is the NUL that replaced the newline —
while a line whose content is "exit" sends nothing and ends the
client's run. -/
theorem C8_client_send (core : List Nat) (rest : List (List Nat))
    (hnz : ∀ b ∈ core, b ≠ 0) :
    (core ≠ exitTok →
      client_run ((core ++ [10]) :: rest) =
        (core ++ [0]) :: client_run rest) ∧
    (core = exitTok → client_run ((core ++ [10]) :: rest) = []) := by
  have hlen : (core ++ [10]).length - 1 = core.length := by simp
  have hset : (core ++ [10]).set ((core ++ [10]).length - 1) 0 =
      core ++ [0] := by
    rw [hlen]
    exact set_length_append core 10 0
  have hcs : cstr (core ++ [0]) = core := cstr_append_zero core [] hnz
  constructor
  · intro hne
    have hcond : strcmpZero (core ++ [0]) exitTok = false := by
      unfold strcmpZero
      rw [hcs]
      simp [hne]
    simp [client_run, clientStep, hset, hcond]
  · intro he
    have hcond : strcmpZero (core ++ [0]) exitTok = true := by
      unfold strcmpZero
      rw [hcs, he]
      simp
    simp [client_run, clientStep, hset, hcond]

/-- C8 witness: the line "hi\n" is sent as the bytes of "hi" plus a
NUL terminator, and an "exit\n" line sends nothing. -/
theorem C8_client_send_witness :
    client_run [[104, 105, 10]] = [[104, 105, 0]] ∧
    client_run [[101, 120, 105, 116, 10]] = [] := by
  constructor
  · have h := (C8_client_send [104, 105] [] (by decide)).1 (by decide)
    simpa using h
  · have h := (C8_client_send [101, 120, 105, 116] [] (by decide)).2 (by decide)
    simpa using h

/-- C8 counterexample: for the entered line "ab\n" the client writes
three bytes [97, 98, 0], not the two line bytes [97, 98] — a NUL byte
is appended, so the send is not verbatim with no bytes added. -/
theorem C8_counterexample :
    clientStep [97, 98, 10] = some [97, 98, 0] ∧
    ([97, 98, 0] : List Nat) ≠ [97, 98] := by
  decide

/-- C9: the shared buffer is zeroed before every chunk read on both
channels, so the behaviour on a batch of chunks does not depend on
residual buffer contents: two runs started from buffers of equal size
but arbitrary contents produce identical echo writes, identical
shutdown status and identical stdin logs. -/
theorem C9_buffer_noninterference (d t : List Nat) (fd ls ep : Int)
    (cks : List (List Nat × Bool)) (scks : List (List Nat))
    (s : ServerState) (b1 b2 : List Nat) (hlen : b1.length = b2.length) :
    (handleConn d t fd { s with buf := b1 } cks).sent =
      (handleConn d t fd { s with buf := b2 } cks).sent ∧
    (handleStdin ls ep { s with buf := b1 } scks).exited =
      (handleStdin ls ep { s with buf := b2 } scks).exited ∧
    (handleStdin ls ep { s with buf := b1 } scks).stdinLog =
      (handleStdin ls ep { s with buf := b2 } scks).stdinLog := by
  have hz : bzeroCall b1 = bzeroCall b2 := by simp [bzeroCall, hlen]
  refine ⟨?_, ?_, ?_⟩
  · cases cks with
    | nil => simp [handleConn]
    | cons p rest =>
        obtain ⟨c, ok⟩ := p
        simp [handleConn, connChunkStep, hz]
  · cases scks with
    | nil => simp [handleStdin]
    | cons c rest => simp [handleStdin, hz]
  · cases scks with
    | nil => simp [handleStdin]
    | cons c rest => simp [handleStdin, hz]

/-- C9 witness: a junk-filled prior buffer and a zeroed one yield the
same observable behaviour at a concrete input. -/
theorem C9_buffer_noninterference_witness :
    (handleConn [] [] 7 { initState with buf := zeroBuf }
        [([1], true)]).sent =
      (handleConn [] [] 7 { initState with buf := List.replicate 16 7 }
        [([1], true)]).sent ∧
    (handleStdin 3 4 { initState with buf := zeroBuf } [[2]]).exited =
      (handleStdin 3 4 { initState with buf := List.replicate 16 7 }
        [[2]]).exited ∧
    (handleStdin 3 4 { initState with buf := zeroBuf } [[2]]).stdinLog =
      (handleStdin 3 4 { initState with buf := List.replicate 16 7 }
        [[2]]).stdinLog :=
  C9_buffer_noninterference [] [] 7 3 4 [([1], true)] [[2]] initState
    zeroBuf (List.replicate 16 7) (by decide)

end EpollEcho
